import Mathlib

/-!
# Verification of the rtsp_to_mkv_segments supervisor

Shallow embedding of `src/rtsp_to_mkv_segments.py`, the process supervisor
that launches, monitors and restarts an ffmpeg recording child.

Modelling decisions, all taken from the source:

* Wall-clock time is modelled in whole seconds (`Nat`) for the main loop,
  whose only waits are `time.sleep(1)` calls, and in whole milliseconds for
  `_kill_process_group`, whose wait is `time.sleep(0.2)` inside a 3-second
  grace window.  Time advances exactly at the sleeps; every other statement
  is instantaneous.
* The main loop (lines 451-577 of the source) is embedded as a small-step
  state machine `phaseStep`.  Each small step corresponds to one guarded
  block of the Python loop, and an OS signal (SIGINT/SIGTERM) may be
  delivered immediately before any small step, which models CPython running
  the registered handler between any two bytecodes of the main thread.
  A run is driven by a list of booleans, one per small step, saying whether
  a signal arrives just before that step.
* The child process is an oracle `Nat → ChildSpec`: for the i-th successful
  launch it says whether `subprocess.Popen` raises (binary missing or not
  executable), how many 1-second poll ticks the child survives, and its
  exit code.
* `logf.write` calls are recorded as an append-only `List LogEvent`;
  `print` output relevant to the claims is recorded in counters.
-/

set_option autoImplicit false

namespace RtspRecorder

/-! ## Configuration surface and validation (source lines 255-389) -/

/-- Parsed command-line arguments, one field per `argparse` option
(lines 266-349).  Numeric options are declared with `type=int`, so they are
embedded as `Int` before validation. -/
structure Args where
  rtsp : String
  out : String
  segment : Int
  tcp : Bool
  restart_delay : Int
  max_restarts : Int
  max_duration : Int
  log : String
  extra_ffmpeg_args : String
deriving DecidableEq

/-- The four `p.error` validation checks of lines 355-365, in source order.
`some msg` means `parser.error(msg)` fires (argparse then exits the
process); `none` means validation passes. -/
def validateArgs (a : Args) : Option String :=
  if a.segment ≤ 0 then some "--segment must be a positive integer."
  else if a.restart_delay < 0 then some "--restart-delay must be >= 0."
  else if a.max_restarts < 0 then some "--max-restarts must be >= 0."
  else if a.max_duration < 0 then some "--max-duration must be >= 0."
  else none

/-- Filesystem and file-handle effects performed by `main` after validation
and before the supervisor loop: `ensure_dir(args.out)` (line 371),
`ensure_dir(os.path.dirname(abs_log))` (line 376) and
`open(abs_log, "a", buffering=1)` (line 445). -/
inductive SetupEffect
  | ensureOutDir (dir : String)
  | ensureLogParent (logPath : String)
  | openLogAppend (logPath : String)
deriving DecidableEq

/-- Effects of lines 371-445 in execution order. -/
def setupEffects (a : Args) : List SetupEffect :=
  [SetupEffect.ensureOutDir a.out, SetupEffect.ensureLogParent a.log,
   SetupEffect.openLogAppend a.log]

/-- The process exit status used by `argparse.ArgumentParser.error`. -/
def parserErrorCode : Nat := 2

/-! ## Process Group Terminator (`_kill_process_group`, lines 197-247) -/

/-- The only exception class handled in `_kill_process_group`. -/
inductive OsError
  | processLookupError
deriving DecidableEq

/-- Signals the terminator may deliver to the process group. -/
inductive KillSignal
  | sigterm
  | sigkill
deriving DecidableEq

/-- Oracle describing the child process during one `_kill_process_group`
call: whether each of the three OS primitives finds the process already
gone, and whether `proc.poll()` reports an exit status at a given number of
elapsed milliseconds since the SIGTERM was sent. -/
structure ProcState where
  pgidLookupFails : Bool
  termKillFails : Bool
  killKillFails : Bool
  exitedBy : Nat → Bool
  pgid : Int

/-- Embedding of `os.getpgid(proc.pid)` (line 219): raises
`ProcessLookupError` when the process is already gone. -/
def os_getpgid (p : ProcState) : Except OsError Int :=
  if p.pgidLookupFails then Except.error OsError.processLookupError
  else Except.ok p.pgid

/-- Embedding of `os.killpg(pgid, sig)` (lines 228 and 244): raises
`ProcessLookupError` when the group vanished before the signal landed. -/
def os_killpg (p : ProcState) (sig : KillSignal) : Except OsError Unit :=
  match sig with
  | KillSignal.sigterm =>
      if p.termKillFails then Except.error OsError.processLookupError
      else Except.ok ()
  | KillSignal.sigkill =>
      if p.killKillFails then Except.error OsError.processLookupError
      else Except.ok ()

/-- Poll interval of the grace loop: `time.sleep(0.2)` (line 239). -/
def pollMs : Nat := 200

/-- Grace period: `deadline = time.monotonic() + 3.0` (line 234). -/
def graceMs : Nat := 3000

/-- The grace-wait loop of lines 235-239:
`while time.monotonic() < deadline: if proc.poll() is not None: return;
time.sleep(0.2)`.  With `deadline` 3000 ms ahead and exact 200 ms sleeps,
the loop body runs precisely while the elapsed time `t` is one of
`0, 200, ..., 2800`, i.e. for `graceMs / pollMs = 15` iterations; the
countdown argument `r` is the number of iterations the time condition still
permits, so `r = 0` is exactly the `while` condition turning false at
`t = 3000`.  Returns the elapsed time on exit and whether the child was
seen to have exited. -/
def pollLoopAux (poll : Nat → Bool) : Nat → Nat → Nat × Bool
  | t, 0 => (t, false)
  | t, r + 1 => if poll t then (t, true) else pollLoopAux poll (t + pollMs) r

/-- Observable outcome of one `_kill_process_group` call: milliseconds
elapsed inside the call, and the signals actually delivered to the group
(a delivered signal is immediately followed by its log marker, so this list
also enumerates the termination markers written). -/
structure KillResult where
  elapsedMs : Nat
  sent : List KillSignal
deriving DecidableEq

/-- Embedding of `_kill_process_group` (lines 197-247).  Every
`ProcessLookupError` raised by a primitive is caught by the function's own
`try/except` blocks (lines 218-222, 227-231, 243-247), which is why this
embedding is total: no error value escapes.  The `Except.error` branches
below are exactly the `except ProcessLookupError` handlers. -/
def killProcessGroup (p : ProcState) : KillResult :=
  match os_getpgid p with
  | Except.error _ => { elapsedMs := 0, sent := [] }
  | Except.ok _ =>
    match os_killpg p KillSignal.sigterm with
    | Except.error _ => { elapsedMs := 0, sent := [] }
    | Except.ok _ =>
      match pollLoopAux p.exitedBy 0 (graceMs / pollMs) with
      | (t, true) => { elapsedMs := t, sent := [KillSignal.sigterm] }
      | (t, false) =>
        match os_killpg p KillSignal.sigkill with
        | Except.error _ => { elapsedMs := t, sent := [KillSignal.sigterm] }
        | Except.ok _ =>
            { elapsedMs := t,
              sent := [KillSignal.sigterm, KillSignal.sigkill] }

/-! ## Supervisor loop (lines 396-584) -/

/-- The distinct ways the supervisor loop ends. -/
inductive Terminal
  | outerStop
  | preDeadline
  | fatal
  | stopSig
  | budget
deriving DecidableEq

/-- One `logf.write` of the supervisor (the child's own output, appended by
the OS, is not supervisory state).  `launchMark idx` carries the launch
index interpolated at line 472 (`launch #{restarts}`); `exitMark rc`
carries the verbatim exit code of line 540. -/
inductive LogEvent
  | sessionStart
  | cmdLine
  | preDeadlineMark
  | launchMark (idx : Nat)
  | midRunDeadlineMark
  | exitMark (rc : Int)
  | sessionStopMark
  | maxRestartsMark
  | sessionEnd
deriving DecidableEq

/-- Program points of the loop body, one per guarded block:
`outerCheck` is the `while not stop` test (line 451); `guard` the
pre-launch duration guard (lines 457-467); `launching` the launch marker
write plus `subprocess.Popen` (lines 470-502); `innerCheck t` the inner
`while proc.poll() is None and not stop` test after `t` sleeps (line 508);
`innerTick t` one `time.sleep(1)` plus the mid-run duration guard (lines
509-524); `stopCheck` the `if stop` branch point (line 527); `exited rc`
the unexpected-exit logging and restart-counter block (lines 538-552);
`budgetCheck` the max-restarts test (line 553); `delay k` the
interruptible restart delay with `k` ticks remaining (lines 568-571);
`done` the code after the loop. -/
inductive Phase
  | outerCheck
  | guard
  | launching
  | innerCheck (ticks : Nat)
  | innerTick (ticks : Nat)
  | stopCheck
  | exited (rc : Int)
  | budgetCheck
  | delay (k : Nat)
  | done (t : Terminal)
deriving DecidableEq

/-- Immutable per-session configuration, after validation: `max_duration`,
`max_restarts` (0 means unlimited for both, via Python truthiness) and
`restart_delay`, all non-negative by lines 358-365. -/
structure Cfg where
  maxDuration : Nat
  maxRestarts : Nat
  restartDelay : Nat
deriving DecidableEq

/-- Behaviour of one launched child: whether `Popen` itself raises
(`FileNotFoundError` / `PermissionError`, lines 489-502), how many
1-second poll ticks the child survives before `proc.poll()` turns
non-`None`, and the `proc.returncode` it then reports. -/
structure ChildSpec where
  fatalLaunch : Bool
  runTicks : Nat
  rc : Int
deriving DecidableEq

/-- Supervisor-visible state: the `stop` flag (line 396), the `restarts`
counter (line 437), elapsed monotonic seconds since `session_start`
(line 412), the current program point, the log-file contents, a ghost
counter of `subprocess.Popen` calls that succeeded, and a counter of the
clean-exit notices printed at line 549. -/
structure MState where
  stop : Bool
  restarts : Nat
  launches : Nat
  time : Nat
  phase : Phase
  log : List LogEvent
  cleanNotes : Nat
deriving DecidableEq

/-- Effect of `handle_sig` (lines 398-403) on the supervisor state: the
single flag write `stop = True`. -/
def applySignal (s : MState) : MState := { s with stop := true }

/-- Full `handle_sig`, including its observable side channel: the state is
paired with the number of notice messages printed by the handler
(line 403), which is the only thing the handler does beyond the flag
write. -/
def handle_sig (sn : MState × Nat) : MState × Nat :=
  (applySignal sn.1, sn.2 + 1)

/-- One small step of the supervisor loop at the current program point,
translated block-for-block from lines 451-571.  Python truthiness of
`max_duration` and `max_restarts` appears as the `≠ 0` conjuncts.
`_kill_process_group` (invoked on the `stopCheck` stop branch, line 530)
is modelled separately by `killProcessGroup`; it performs no launch and
touches none of the fields below. -/
def phaseStep (cfg : Cfg) (child : Nat → ChildSpec) (s : MState) : MState :=
  match s.phase with
  | Phase.outerCheck =>
      if s.stop then
        { s with phase := Phase.done Terminal.outerStop,
                 log := s.log ++ [LogEvent.sessionEnd] }
      else { s with phase := Phase.guard }
  | Phase.guard =>
      if cfg.maxDuration ≠ 0 ∧ cfg.maxDuration ≤ s.time then
        { s with phase := Phase.done Terminal.preDeadline,
                 log := s.log ++ [LogEvent.preDeadlineMark, LogEvent.sessionEnd] }
      else { s with phase := Phase.launching }
  | Phase.launching =>
      if (child s.launches).fatalLaunch then
        { s with phase := Phase.done Terminal.fatal,
                 log := s.log ++ [LogEvent.launchMark s.restarts] }
      else
        { s with phase := Phase.innerCheck 0,
                 launches := s.launches + 1,
                 log := s.log ++ [LogEvent.launchMark s.restarts] }
  | Phase.innerCheck t =>
      if (child (s.launches - 1)).runTicks ≤ t ∨ s.stop then
        { s with phase := Phase.stopCheck }
      else { s with phase := Phase.innerTick t }
  | Phase.innerTick t =>
      if cfg.maxDuration ≠ 0 ∧ cfg.maxDuration ≤ s.time + 1 then
        { s with time := s.time + 1, stop := true,
                 phase := Phase.innerCheck (t + 1),
                 log := s.log ++ [LogEvent.midRunDeadlineMark] }
      else { s with time := s.time + 1, phase := Phase.innerCheck (t + 1) }
  | Phase.stopCheck =>
      if s.stop then
        { s with phase := Phase.done Terminal.stopSig,
                 log := s.log ++ [LogEvent.sessionStopMark, LogEvent.sessionEnd] }
      else { s with phase := Phase.exited (child (s.launches - 1)).rc }
  | Phase.exited rc =>
      { s with restarts := s.restarts + 1,
               phase := Phase.budgetCheck,
               log := s.log ++ [LogEvent.exitMark rc],
               cleanNotes := s.cleanNotes + (if rc = 0 then 1 else 0) }
  | Phase.budgetCheck =>
      if cfg.maxRestarts ≠ 0 ∧ cfg.maxRestarts ≤ s.restarts then
        { s with phase := Phase.done Terminal.budget,
                 log := s.log ++ [LogEvent.maxRestartsMark, LogEvent.sessionEnd] }
      else { s with phase := Phase.delay cfg.restartDelay }
  | Phase.delay k =>
      match k with
      | 0 => { s with phase := Phase.outerCheck }
      | Nat.succ k' =>
          if s.stop then { s with phase := Phase.outerCheck }
          else { s with time := s.time + 1, phase := Phase.delay k' }
  | Phase.done _ => s

/-- One small step with possible asynchronous signal delivery: when `b` is
true, SIGINT/SIGTERM is delivered (the handler's flag write happens) just
before the step executes. -/
def smallStep (cfg : Cfg) (child : Nat → ChildSpec) (b : Bool) (s : MState) :
    MState :=
  phaseStep cfg child (if b then applySignal s else s)

/-- Run the machine for one small step per list element; the element says
whether a signal arrives before that step. -/
def run (cfg : Cfg) (child : Nat → ChildSpec) :
    List Bool → MState → MState
  | [], s => s
  | b :: rest, s => run cfg child rest (smallStep cfg child b s)

/-- State on entering the loop: `stop = False` (line 396), `restarts = 0`
(line 437), session clock just captured (line 412), and the session header
plus `CMD:` line already written (lines 446-449). -/
def initState : MState :=
  { stop := false, restarts := 0, launches := 0, time := 0,
    phase := Phase.outerCheck,
    log := [LogEvent.sessionStart, LogEvent.cmdLine], cleanNotes := 0 }

/-- The launch count printed by the session summary (line 583):
`ffmpeg launches: {restarts + 1}`. -/
def reportedLaunches (s : MState) : Nat := s.restarts + 1

/-- Process exit status of the supervisor per terminal path: `sys.exit(1)`
on a fatal launch failure (lines 495 and 502), and the implicit status 0
when `main` returns on every other path. -/
def exitCode : Terminal → Nat
  | Terminal.fatal => 1
  | _ => 0

/-- Machine configuration induced by validated arguments (validation
guarantees all three are non-negative, so `Int.toNat` is lossless). -/
def cfgOf (a : Args) : Cfg :=
  { maxDuration := a.max_duration.toNat,
    maxRestarts := a.max_restarts.toNat,
    restartDelay := a.restart_delay.toNat }

/-- End-to-end shape of `main`: the validation checks of lines 355-365 run
before any directory creation, log opening or launch; on failure argparse
exits with status 2 having performed no effect, otherwise the setup
effects happen and the supervisor loop runs. -/
def mainProgram (a : Args) (child : Nat → ChildSpec) (sigs : List Bool) :
    List SetupEffect × Except Nat MState :=
  match validateArgs a with
  | some _ => ([], Except.error parserErrorCode)
  | none => (setupEffects a, Except.ok (run (cfgOf a) child sigs initState))

/-! ## Invariants and helper measures -/

/-- Deadline-safety invariant: whenever control is at the launch block, the
elapsed time is still under the configured maximum. -/
def deadlineInv (cfg : Cfg) (s : MState) : Prop :=
  s.phase = Phase.launching → s.time < cfg.maxDuration

/-- Restart-budget invariant, phase-indexed: strictly under the budget
while the loop is live, at most the budget at the check point, and equal to
the budget exactly on the budget terminal. -/
def budgetInv (cfg : Cfg) (s : MState) : Prop :=
  match s.phase with
  | Phase.budgetCheck => s.restarts ≤ cfg.maxRestarts
  | Phase.done t =>
      s.restarts ≤ cfg.maxRestarts ∧
        (t = Terminal.budget → s.restarts = cfg.maxRestarts)
  | _ => s.restarts < cfg.maxRestarts

/-- Between a successful `Popen` and the handling of that child's end, one
more launch has happened than exits have been accounted; elsewhere the two
counters agree.  The `stopSig` terminal is reached from inside that window,
which is why it carries bias 1. -/
def launchBias : Phase → Nat
  | Phase.innerCheck _ => 1
  | Phase.innerTick _ => 1
  | Phase.stopCheck => 1
  | Phase.exited _ => 1
  | Phase.done Terminal.stopSig => 1
  | _ => 0

/-- Launches performed plus launches that can still happen before the stop
flag is next observed: only the `guard` and `launching` points can still
reach a `Popen` without passing the outer or inner stop check. -/
def launchPotential (s : MState) : Nat :=
  s.launches + (match s.phase with
    | Phase.guard => 1
    | Phase.launching => 1
    | _ => 0)

/-- Recognizes per-launch markers in the log. -/
def isLaunchMark : LogEvent → Bool
  | LogEvent.launchMark _ => true
  | _ => false

/-! ## Concrete sessions used to instantiate the theorems -/

/-- A 1-second deadline with unlimited restarts and no delay. -/
def cfgC1 : Cfg := { maxDuration := 1, maxRestarts := 0, restartDelay := 0 }

/-- A child that launches fine and survives five poll ticks. -/
def childC1 : Nat → ChildSpec :=
  fun _ => { fatalLaunch := false, runTicks := 5, rc := 1 }

/-- Unlimited duration, a restart budget of one, no delay. -/
def cfgC2 : Cfg := { maxDuration := 0, maxRestarts := 1, restartDelay := 0 }

/-- A child that exits immediately with code 7 on every launch. -/
def childC2 : Nat → ChildSpec :=
  fun _ => { fatalLaunch := false, runTicks := 0, rc := 7 }

/-- Scenario D configuration: max restarts 2, no deadline, no delay. -/
def cfgD : Cfg := { maxDuration := 0, maxRestarts := 2, restartDelay := 0 }

/-- Scenario D child: every launch succeeds and is immediately seen as
exited with a failure code. -/
def childD : Nat → ChildSpec :=
  fun _ => { fatalLaunch := false, runTicks := 0, rc := 1 }

/-- Scenario C configuration: the source defaults (4-hour cap, unlimited
restarts, 5-second delay). -/
def cfg4 : Cfg := { maxDuration := 14400, maxRestarts := 0, restartDelay := 5 }

/-- Scenario C child: `subprocess.Popen` raises on every attempt because
the binary is missing. -/
def child4 : Nat → ChildSpec :=
  fun _ => { fatalLaunch := true, runTicks := 0, rc := 0 }

/-- Clean-exit scenario: everything unlimited, no delay. -/
def cfg7 : Cfg := { maxDuration := 0, maxRestarts := 0, restartDelay := 0 }

/-- A child that exits immediately with the conventional success code 0. -/
def child7 : Nat → ChildSpec :=
  fun _ => { fatalLaunch := false, runTicks := 0, rc := 0 }

/-- Race scenario: everything unlimited, no delay. -/
def cfg8 : Cfg := { maxDuration := 0, maxRestarts := 0, restartDelay := 0 }

/-- A child that would run essentially forever once launched. -/
def child8 : Nat → ChildSpec :=
  fun _ => { fatalLaunch := false, runTicks := 1000000, rc := 0 }

/-- A child that ignores SIGTERM: it never reports an exit status during
the grace window, and none of the OS primitives fail. -/
def procStuck : ProcState :=
  { pgidLookupFails := false, termKillFails := false, killKillFails := false,
    exitedBy := fun _ => false, pgid := 1234 }

/-- A child already gone before `os.getpgid` resolves. -/
def procGone : ProcState :=
  { pgidLookupFails := true, termKillFails := false, killKillFails := false,
    exitedBy := fun _ => false, pgid := 1234 }

/-- A child that vanishes between `os.getpgid` and the SIGTERM. -/
def procTermGone : ProcState :=
  { pgidLookupFails := false, termKillFails := true, killKillFails := false,
    exitedBy := fun _ => false, pgid := 1234 }

/-- A child that ignores SIGTERM and vanishes just before the SIGKILL. -/
def procKillGone : ProcState :=
  { pgidLookupFails := false, termKillFails := false, killKillFails := true,
    exitedBy := fun _ => false, pgid := 1234 }

/-- An argument vector rejected by the first validation check. -/
def argsBad : Args :=
  { rtsp := "rtsp://cam/stream", out := "./recordings", segment := 0,
    tcp := false, restart_delay := 5, max_restarts := 0,
    max_duration := 14400, log := "./ffmpeg_recorder.log",
    extra_ffmpeg_args := "" }

/-- The source's default argument vector, which passes validation. -/
def argsGood : Args :=
  { rtsp := "rtsp://cam/stream", out := "./recordings", segment := 600,
    tcp := false, restart_delay := 5, max_restarts := 0,
    max_duration := 14400, log := "./ffmpeg_recorder.log",
    extra_ffmpeg_args := "" }

/-- A child used only to drive `mainProgram` and `run` in witnesses. -/
def childPlain : Nat → ChildSpec :=
  fun _ => { fatalLaunch := false, runTicks := 0, rc := 0 }

/-! ## General lemmas about the machine -/

theorem run_preserve (cfg : Cfg) (child : Nat → ChildSpec) (P : MState → Prop)
    (h : ∀ b s, P s → P (smallStep cfg child b s)) :
    ∀ (sigs : List Bool) (s : MState), P s → P (run cfg child sigs s) := by
  intro sigs
  induction sigs with
  | nil => intro s hs; exact hs
  | cons b rest ih => intro s hs; exact ih _ (h b s hs)

theorem deadlineInv_phaseStep (cfg : Cfg) (child : Nat → ChildSpec)
    (hD : cfg.maxDuration ≠ 0) (s : MState) (hs : deadlineInv cfg s) :
    deadlineInv cfg (phaseStep cfg child s) := by
  obtain ⟨stp, res, lau, tim, ph, lg, cn⟩ := s
  cases ph
  case delay k =>
    cases k <;> simp only [deadlineInv, phaseStep] <;>
      (try split_ifs) <;> simp
  all_goals
    simp only [deadlineInv, phaseStep] at hs ⊢ <;> (try split_ifs) <;>
      simp_all <;> omega

theorem deadlineInv_smallStep (cfg : Cfg) (child : Nat → ChildSpec)
    (hD : cfg.maxDuration ≠ 0) (b : Bool) (s : MState)
    (hs : deadlineInv cfg s) :
    deadlineInv cfg (smallStep cfg child b s) := by
  cases b
  · exact deadlineInv_phaseStep cfg child hD s hs
  · exact deadlineInv_phaseStep cfg child hD (applySignal s) hs

theorem budgetInv_phaseStep (cfg : Cfg) (child : Nat → ChildSpec)
    (hR : cfg.maxRestarts ≠ 0) (s : MState) (hs : budgetInv cfg s) :
    budgetInv cfg (phaseStep cfg child s) := by
  obtain ⟨stp, res, lau, tim, ph, lg, cn⟩ := s
  cases ph
  case delay k =>
    cases k <;> simp only [budgetInv, phaseStep] at hs ⊢ <;>
      (try split_ifs) <;> simp_all
  all_goals
    simp only [budgetInv, phaseStep] at hs ⊢ <;> (try split_ifs) <;>
      simp_all <;> omega

theorem budgetInv_smallStep (cfg : Cfg) (child : Nat → ChildSpec)
    (hR : cfg.maxRestarts ≠ 0) (b : Bool) (s : MState)
    (hs : budgetInv cfg s) :
    budgetInv cfg (smallStep cfg child b s) := by
  cases b
  · exact budgetInv_phaseStep cfg child hR s hs
  · exact budgetInv_phaseStep cfg child hR (applySignal s) hs

theorem launchBias_phaseStep (cfg : Cfg) (child : Nat → ChildSpec)
    (s : MState) (hs : s.launches = s.restarts + launchBias s.phase) :
    (phaseStep cfg child s).launches
      = (phaseStep cfg child s).restarts
          + launchBias (phaseStep cfg child s).phase := by
  obtain ⟨stp, res, lau, tim, ph, lg, cn⟩ := s
  cases ph
  case delay k =>
    cases k <;> simp only [launchBias, phaseStep] at hs ⊢ <;>
      (try split_ifs) <;> simp_all
  case done t =>
    cases t <;> simp_all [launchBias, phaseStep]
  all_goals
    simp only [launchBias, phaseStep] at hs ⊢ <;> (try split_ifs) <;>
      simp_all <;> omega

theorem launchBias_smallStep (cfg : Cfg) (child : Nat → ChildSpec)
    (b : Bool) (s : MState)
    (hs : s.launches = s.restarts + launchBias s.phase) :
    (smallStep cfg child b s).launches
      = (smallStep cfg child b s).restarts
          + launchBias (smallStep cfg child b s).phase := by
  cases b
  · exact launchBias_phaseStep cfg child s hs
  · exact launchBias_phaseStep cfg child (applySignal s) hs

theorem stop_phaseStep (cfg : Cfg) (child : Nat → ChildSpec)
    (s : MState) (hs : s.stop = true) :
    (phaseStep cfg child s).stop = true := by
  obtain ⟨stp, res, lau, tim, ph, lg, cn⟩ := s
  cases ph
  case delay k =>
    cases k <;> simp_all [phaseStep] <;> (try split_ifs) <;> simp_all
  all_goals simp_all [phaseStep] <;> (try split_ifs) <;> simp_all

theorem stop_smallStep (cfg : Cfg) (child : Nat → ChildSpec)
    (b : Bool) (s : MState) (hs : s.stop = true) :
    (smallStep cfg child b s).stop = true := by
  cases b
  · exact stop_phaseStep cfg child s hs
  · exact stop_phaseStep cfg child (applySignal s) rfl

theorem launchPotential_phaseStep (cfg : Cfg) (child : Nat → ChildSpec)
    (s : MState) (hs : s.stop = true) :
    launchPotential (phaseStep cfg child s) ≤ launchPotential s := by
  obtain ⟨stp, res, lau, tim, ph, lg, cn⟩ := s
  cases ph
  case delay k =>
    cases k <;> simp only [launchPotential, phaseStep] <;>
      (try split_ifs) <;> simp_all
  all_goals
    simp only [launchPotential, phaseStep] at hs ⊢ <;> (try split_ifs) <;>
      simp_all <;> omega

theorem applySignal_of_stop (s : MState) (hs : s.stop = true) :
    applySignal s = s := by
  obtain ⟨stp, res, lau, tim, ph, lg, cn⟩ := s
  simp only [MState.stop] at hs
  simp [applySignal, hs]

theorem launchPotential_smallStep (cfg : Cfg) (child : Nat → ChildSpec)
    (b : Bool) (s : MState) (hs : s.stop = true) :
    launchPotential (smallStep cfg child b s) ≤ launchPotential s := by
  cases b
  · exact launchPotential_phaseStep cfg child s hs
  · show launchPotential (phaseStep cfg child (applySignal s)) ≤ _
    rw [applySignal_of_stop s hs]
    exact launchPotential_phaseStep cfg child s hs

theorem run_stop_potential (cfg : Cfg) (child : Nat → ChildSpec) :
    ∀ (sigs : List Bool) (s : MState), s.stop = true →
      (run cfg child sigs s).stop = true ∧
        launchPotential (run cfg child sigs s) ≤ launchPotential s := by
  intro sigs
  induction sigs with
  | nil => intro s hs; exact ⟨hs, Nat.le_refl _⟩
  | cons b rest ih =>
      intro s hs
      have h1 := stop_smallStep cfg child b s hs
      have h2 := launchPotential_smallStep cfg child b s hs
      have h3 := ih (smallStep cfg child b s) h1
      exact ⟨h3.1, Nat.le_trans h3.2 h2⟩

theorem launches_phaseStep_of_ne (cfg : Cfg) (child : Nat → ChildSpec)
    (s : MState) (hs : s.phase ≠ Phase.launching) :
    (phaseStep cfg child s).launches = s.launches := by
  obtain ⟨stp, res, lau, tim, ph, lg, cn⟩ := s
  cases ph
  case delay k =>
    cases k <;> simp only [phaseStep] <;> (try split_ifs) <;> simp_all
  all_goals simp only [phaseStep] at hs ⊢ <;> (try split_ifs) <;> simp_all

theorem launches_smallStep_of_ne (cfg : Cfg) (child : Nat → ChildSpec)
    (b : Bool) (s : MState) (hs : s.phase ≠ Phase.launching) :
    (smallStep cfg child b s).launches = s.launches := by
  cases b
  · exact launches_phaseStep_of_ne cfg child s hs
  · exact launches_phaseStep_of_ne cfg child (applySignal s) hs

theorem restarts_phaseStep_exited (cfg : Cfg) (child : Nat → ChildSpec)
    (s : MState) (rc : Int) (hs : s.phase = Phase.exited rc) :
    (phaseStep cfg child s).restarts = s.restarts + 1 := by
  obtain ⟨stp, res, lau, tim, ph, lg, cn⟩ := s
  cases ph <;> simp_all [phaseStep]

theorem restarts_phaseStep_of_ne (cfg : Cfg) (child : Nat → ChildSpec)
    (s : MState) (hs : ∀ rc : Int, s.phase ≠ Phase.exited rc) :
    (phaseStep cfg child s).restarts = s.restarts := by
  obtain ⟨stp, res, lau, tim, ph, lg, cn⟩ := s
  cases ph
  case delay k =>
    cases k <;> simp only [phaseStep] <;> (try split_ifs) <;> simp_all
  case exited rc => exact absurd rfl (hs rc)
  all_goals simp only [phaseStep] <;> (try split_ifs) <;> simp_all

theorem smallStep_of_stop (cfg : Cfg) (child : Nat → ChildSpec) (b : Bool)
    (s : MState) (hs : s.stop = true) :
    smallStep cfg child b s = phaseStep cfg child s := by
  unfold smallStep
  cases b <;> simp [applySignal_of_stop s hs]

theorem phaseStep_outer_stop (cfg : Cfg) (child : Nat → ChildSpec)
    (s : MState) (hs : s.stop = true) (hp : s.phase = Phase.outerCheck) :
    phaseStep cfg child s
      = { s with phase := Phase.done Terminal.outerStop,
                 log := s.log ++ [LogEvent.sessionEnd] } := by
  obtain ⟨stp, res, lau, tim, ph, lg, cn⟩ := s
  simp only [MState.phase] at hp
  simp only [MState.stop] at hs
  subst hp
  subst hs
  simp [phaseStep]

theorem phaseStep_done (cfg : Cfg) (child : Nat → ChildSpec)
    (s : MState) (t : Terminal) (hp : s.phase = Phase.done t) :
    phaseStep cfg child s = s := by
  obtain ⟨stp, res, lau, tim, ph, lg, cn⟩ := s
  simp only [MState.phase] at hp
  subst hp
  simp [phaseStep]

theorem stopped_outer_frozen (cfg : Cfg) (child : Nat → ChildSpec) :
    ∀ (sigs : List Bool) (s : MState), s.stop = true →
      (s.phase = Phase.outerCheck ∨ ∃ t, s.phase = Phase.done t) →
      (run cfg child sigs s).launches = s.launches := by
  intro sigs
  induction sigs with
  | nil => intro s _ _; rfl
  | cons b rest ih =>
      intro s hstop hph
      rw [run, smallStep_of_stop cfg child b s hstop]
      rcases hph with hph | ⟨t, hph⟩
      · rw [phaseStep_outer_stop cfg child s hstop hph]
        exact ih _ hstop (Or.inr ⟨Terminal.outerStop, rfl⟩)
      · rw [phaseStep_done cfg child s t hph]
        exact ih s hstop (Or.inr ⟨t, hph⟩)

theorem budgetInv_le (cfg : Cfg) (s : MState) (h : budgetInv cfg s) :
    s.restarts ≤ cfg.maxRestarts := by
  unfold budgetInv at h
  cases hp : s.phase <;> rw [hp] at h <;>
    first | exact h.1 | exact h | exact Nat.le_of_lt h

theorem budgetInv_done_budget (cfg : Cfg) (s : MState) (h : budgetInv cfg s)
    (hp : s.phase = Phase.done Terminal.budget) :
    s.restarts = cfg.maxRestarts := by
  unfold budgetInv at h
  rw [hp] at h
  exact h.2 rfl

/-! ## Lemmas about the terminator -/

theorem pollLoopAux_fst_le (poll : Nat → Bool) :
    ∀ (r t : Nat), (pollLoopAux poll t r).1 ≤ t + pollMs * r := by
  intro r
  induction r with
  | zero => intro t; simp [pollLoopAux]
  | succ r ih =>
      intro t
      simp only [pollLoopAux]
      split
      · exact Nat.le_add_right t _
      · calc (pollLoopAux poll (t + pollMs) r).1
              ≤ (t + pollMs) + pollMs * r := ih _
          _ ≤ t + pollMs * (r + 1) := by simp only [pollMs]; omega

theorem pollLoopAux_never (poll : Nat → Bool) (hp : ∀ u, poll u = false) :
    ∀ (r t : Nat), pollLoopAux poll t r = (t + pollMs * r, false) := by
  intro r
  induction r with
  | zero => intro t; simp [pollLoopAux]
  | succ r ih =>
      intro t
      have harith : t + pollMs + pollMs * r = t + pollMs * (r + 1) := by
        simp only [pollMs]
        omega
      simp only [pollLoopAux, hp t]
      rw [ih, harith]
      simp

/-! ## Lemmas about the signal handler -/

theorem handle_sig_iterate (sn : MState × Nat) :
    ∀ k : Nat, 1 ≤ k → handle_sig^[k] sn = (applySignal sn.1, sn.2 + k) := by
  intro k
  induction k with
  | zero => intro h; omega
  | succ k ih =>
      intro _
      rcases Nat.eq_zero_or_pos k with hk | hk
      · subst hk; simp [handle_sig]
      · rw [Function.iterate_succ_apply', ih hk]
        simp [handle_sig, applySignal]
        omega

/-! ## Claim theorems -/

/-- C1 (deadline safety): with a configured maximum duration D > 0, no
child launch occurs once the elapsed session time is ≥ D.  Conjuncts:
a `Popen` call can only happen from the `launching` point (all other
steps leave the launch count unchanged); every reachable `launching`
state has elapsed time strictly below D, even when only fractionally
under budget at the guard; the pre-launch guard turns an over-budget
iteration into the terminal deadline verdict with no launch; the mid-run
guard sets the stop flag on breach; and a set stop flag at the post-run
check ends the session permanently, so no restart follows. -/
theorem deadline_safety (cfg : Cfg) (child : Nat → ChildSpec)
    (hD : 0 < cfg.maxDuration) :
    (∀ (b : Bool) (s : MState), s.phase ≠ Phase.launching →
        (smallStep cfg child b s).launches = s.launches)
  ∧ (∀ sigs : List Bool,
        (run cfg child sigs initState).phase = Phase.launching →
        (run cfg child sigs initState).time < cfg.maxDuration)
  ∧ (∀ (b : Bool) (s : MState), s.phase = Phase.guard →
        cfg.maxDuration ≤ s.time →
        (smallStep cfg child b s).phase = Phase.done Terminal.preDeadline)
  ∧ (∀ (b : Bool) (s : MState) (t : Nat), s.phase = Phase.innerTick t →
        cfg.maxDuration ≤ s.time + 1 →
        (smallStep cfg child b s).stop = true)
  ∧ (∀ (b : Bool) (s : MState), s.stop = true → s.phase = Phase.stopCheck →
        (smallStep cfg child b s).phase = Phase.done Terminal.stopSig) := by
  refine ⟨?_, ?_, ?_, ?_, ?_⟩
  · intro b s hp
    exact launches_smallStep_of_ne cfg child b s hp
  · intro sigs
    have h := run_preserve cfg child (deadlineInv cfg)
      (deadlineInv_smallStep cfg child (Nat.pos_iff_ne_zero.mp hD))
      sigs initState (by simp [deadlineInv, initState])
    exact h
  · intro b s hp hle
    obtain ⟨stp, res, lau, tim, ph, lg, cn⟩ := s
    simp only [MState.phase] at hp
    subst hp
    simp only [MState.time] at hle
    cases b <;>
      simp only [smallStep, applySignal, phaseStep, if_true, if_false,
        Bool.false_eq_true, ite_false, ite_true] <;>
      rw [if_pos ⟨by omega, hle⟩]
  · intro b s t hp hle
    obtain ⟨stp, res, lau, tim, ph, lg, cn⟩ := s
    simp only [MState.phase] at hp
    subst hp
    simp only [MState.time] at hle
    cases b <;>
      simp only [smallStep, applySignal, phaseStep, Bool.false_eq_true,
        ite_false, ite_true] <;>
      rw [if_pos ⟨by omega, hle⟩]
  · intro b s hstop hp
    rw [smallStep_of_stop cfg child b s hstop]
    obtain ⟨stp, res, lau, tim, ph, lg, cn⟩ := s
    simp only [MState.phase] at hp
    simp only [MState.stop] at hstop
    subst hp
    subst hstop
    simp [phaseStep]

/-- Witness for C1 at the concrete 1-second-deadline session. -/
theorem deadline_safety_witness :
    0 < cfgC1.maxDuration
  ∧ (run cfgC1 childC1 [false, false] initState).time < cfgC1.maxDuration
  ∧ (smallStep cfgC1 childC1 false
        { initState with phase := Phase.guard, time := 3 }).phase
      = Phase.done Terminal.preDeadline
  ∧ (smallStep cfgC1 childC1 false
        { initState with phase := Phase.innerTick 0, launches := 1 }).stop
      = true
  ∧ (smallStep cfgC1 childC1 false
        { initState with phase := Phase.stopCheck, stop := true,
                         launches := 1 }).phase
      = Phase.done Terminal.stopSig :=
  ⟨by decide,
   (deadline_safety cfgC1 childC1 (by decide)).2.1 [false, false] (by decide),
   (deadline_safety cfgC1 childC1 (by decide)).2.2.1 false _ rfl (by decide),
   (deadline_safety cfgC1 childC1 (by decide)).2.2.2.1 false _ 0 rfl
     (by decide),
   (deadline_safety cfgC1 childC1 (by decide)).2.2.2.2 false _ rfl rfl⟩

/-- C2 (restart accounting): the restart counter starts at 0, increases by
exactly 1 on every unexpected-exit step and on no other step (in
particular never on a deliberate signal- or deadline-triggered stop, whose
steps are not `exited` steps), and with a configured maximum restart count
R > 0 the counter never exceeds R, the budget terminal is reached exactly
with the counter at R, and the budget check lets the loop continue
whenever the counter is still below R. -/
theorem restart_accounting (cfg : Cfg) (child : Nat → ChildSpec)
    (hR : 0 < cfg.maxRestarts) :
    initState.restarts = 0
  ∧ (∀ (b : Bool) (s : MState) (rc : Int), s.phase = Phase.exited rc →
        (smallStep cfg child b s).restarts = s.restarts + 1)
  ∧ (∀ (b : Bool) (s : MState), (∀ rc : Int, s.phase ≠ Phase.exited rc) →
        (smallStep cfg child b s).restarts = s.restarts)
  ∧ (∀ sigs : List Bool,
        (run cfg child sigs initState).restarts ≤ cfg.maxRestarts)
  ∧ (∀ sigs : List Bool,
        (run cfg child sigs initState).phase = Phase.done Terminal.budget →
        (run cfg child sigs initState).restarts = cfg.maxRestarts)
  ∧ (∀ (b : Bool) (s : MState), s.phase = Phase.budgetCheck →
        s.restarts < cfg.maxRestarts →
        (smallStep cfg child b s).phase = Phase.delay cfg.restartDelay) := by
  have hR0 : cfg.maxRestarts ≠ 0 := Nat.pos_iff_ne_zero.mp hR
  have hinv : ∀ sigs : List Bool,
      budgetInv cfg (run cfg child sigs initState) := by
    intro sigs
    exact run_preserve cfg child (budgetInv cfg)
      (budgetInv_smallStep cfg child hR0) sigs initState
      (by simpa [budgetInv, initState] using hR)
  refine ⟨rfl, ?_, ?_, ?_, ?_, ?_⟩
  · intro b s rc hp
    cases b
    · exact restarts_phaseStep_exited cfg child s rc hp
    · exact restarts_phaseStep_exited cfg child (applySignal s) rc hp
  · intro b s hp
    cases b
    · exact restarts_phaseStep_of_ne cfg child s hp
    · exact restarts_phaseStep_of_ne cfg child (applySignal s) hp
  · intro sigs
    exact budgetInv_le cfg _ (hinv sigs)
  · intro sigs hp
    exact budgetInv_done_budget cfg _ (hinv sigs) hp
  · intro b s hp hlt
    obtain ⟨stp, res, lau, tim, ph, lg, cn⟩ := s
    simp only [MState.phase] at hp
    subst hp
    simp only [MState.restarts] at hlt
    cases b <;>
      simp only [smallStep, applySignal, phaseStep, Bool.false_eq_true,
        ite_false, ite_true] <;>
      rw [if_neg (by omega)]

/-- Witness for C2 at the concrete budget-1 session with an
immediately-exiting child. -/
theorem restart_accounting_witness :
    0 < cfgC2.maxRestarts
  ∧ initState.restarts = 0
  ∧ (smallStep cfgC2 childC2 false
        { initState with phase := Phase.exited 7, launches := 1 }).restarts
      = ({ initState with phase := Phase.exited 7,
                          launches := 1 } : MState).restarts + 1
  ∧ (run cfgC2 childC2 (List.replicate 7 false) initState).restarts
      ≤ cfgC2.maxRestarts
  ∧ (run cfgC2 childC2 (List.replicate 7 false) initState).restarts
      = cfgC2.maxRestarts
  ∧ (smallStep cfgC2 childC2 false
        { initState with phase := Phase.budgetCheck, launches := 1 }).phase
      = Phase.delay cfgC2.restartDelay :=
  ⟨by decide,
   (restart_accounting cfgC2 childC2 (by decide)).1,
   (restart_accounting cfgC2 childC2 (by decide)).2.1 false _ 7 rfl,
   (restart_accounting cfgC2 childC2 (by decide)).2.2.2.1
     (List.replicate 7 false),
   (restart_accounting cfgC2 childC2 (by decide)).2.2.2.2.1
     (List.replicate 7 false) (by decide),
   (restart_accounting cfgC2 childC2 (by decide)).2.2.2.2.2 false _ rfl
     (by decide)⟩

/-- C3 counterexample: in Scenario D (max restarts 2, child polls as
immediately exited on every launch) the summary reports 3 launches while
only 2 `Popen` calls were performed, so the reported count does not equal
the number of child launches actually performed. -/
theorem launch_report_overcount :
    reportedLaunches (run cfgD childD (List.replicate 15 false) initState) = 3
  ∧ (run cfgD childD (List.replicate 15 false) initState).launches = 2
  ∧ reportedLaunches (run cfgD childD (List.replicate 15 false) initState)
      ≠ (run cfgD childD (List.replicate 15 false) initState).launches := by
  decide

/-- C3 amended: the summary always reports `restarts + 1` as the launch
count; on the stop-flag terminal path this equals the number of launches
actually performed, but on the restart-budget terminal path it exceeds the
actual launch count by one (the counter was incremented for an exit that
was not followed by a relaunch); in Scenario D exactly 2 launches are
performed, the counter reaches 2, and the report says 3. -/
theorem launch_reporting_amended (cfg : Cfg) (child : Nat → ChildSpec) :
    (∀ s : MState, reportedLaunches s = s.restarts + 1)
  ∧ (∀ sigs : List Bool,
        (run cfg child sigs initState).launches
          = (run cfg child sigs initState).restarts
              + launchBias (run cfg child sigs initState).phase)
  ∧ (∀ sigs : List Bool,
        (run cfg child sigs initState).phase = Phase.done Terminal.budget →
        reportedLaunches (run cfg child sigs initState)
          = (run cfg child sigs initState).launches + 1)
  ∧ (∀ sigs : List Bool,
        (run cfg child sigs initState).phase = Phase.done Terminal.stopSig →
        reportedLaunches (run cfg child sigs initState)
          = (run cfg child sigs initState).launches)
  ∧ ((run cfgD childD (List.replicate 15 false) initState).launches = 2
      ∧ (run cfgD childD (List.replicate 15 false) initState).restarts = 2
      ∧ (run cfgD childD (List.replicate 15 false) initState).phase
          = Phase.done Terminal.budget
      ∧ reportedLaunches
          (run cfgD childD (List.replicate 15 false) initState) = 3) := by
  have hbias : ∀ sigs : List Bool,
      (run cfg child sigs initState).launches
        = (run cfg child sigs initState).restarts
            + launchBias (run cfg child sigs initState).phase := by
    intro sigs
    exact run_preserve cfg child
      (fun s => s.launches = s.restarts + launchBias s.phase)
      (launchBias_smallStep cfg child) sigs initState
      (by simp [initState, launchBias])
  refine ⟨fun _ => rfl, hbias, ?_, ?_, by decide⟩
  · intro sigs hp
    have h := hbias sigs
    rw [hp] at h
    simp only [launchBias] at h
    simp [reportedLaunches, h]
  · intro sigs hp
    have h := hbias sigs
    rw [hp] at h
    simp only [launchBias] at h
    simp [reportedLaunches, h]

/-- Witness for C3 (amended) at the Scenario D session. -/
theorem launch_reporting_amended_witness :
    (run cfgD childD (List.replicate 15 false) initState).launches
      = (run cfgD childD (List.replicate 15 false) initState).restarts
          + launchBias
              (run cfgD childD (List.replicate 15 false) initState).phase
  ∧ reportedLaunches (run cfgD childD (List.replicate 15 false) initState)
      = (run cfgD childD (List.replicate 15 false) initState).launches + 1 :=
  ⟨(launch_reporting_amended cfgD childD).2.1 (List.replicate 15 false),
   (launch_reporting_amended cfgD childD).2.2.1 (List.replicate 15 false)
     (by decide)⟩

/-- C4 counterexample: launching against a missing binary ends the session
on the fatal terminal with zero restarts, but the log contains one launch
marker, not zero, because the marker is written before `Popen` is tried. -/
theorem fatal_launch_marker_counterexample :
    (run cfg4 child4 [false, false, false] initState).phase
      = Phase.done Terminal.fatal
  ∧ (run cfg4 child4 [false, false, false] initState).restarts = 0
  ∧ List.countP isLaunchMark
      (run cfg4 child4 [false, false, false] initState).log = 1 := by
  decide

/-- C4 amended: a launch attempt against a nonexistent or non-executable
binary causes immediate process exit with the non-zero status 1 and zero
restart attempts, and exactly one launch marker is written in addition to
the session-start header (the attempt is logged before the spawn is
tried); no session-end marker follows on this path. -/
theorem fatal_launch_amended (cfg : Cfg) (child : Nat → ChildSpec)
    (b : Bool) (s : MState)
    (hf : (child s.launches).fatalLaunch = true)
    (hp : s.phase = Phase.launching) :
    (smallStep cfg child b s).phase = Phase.done Terminal.fatal
  ∧ (smallStep cfg child b s).restarts = s.restarts
  ∧ (smallStep cfg child b s).launches = s.launches
  ∧ (smallStep cfg child b s).log = s.log ++ [LogEvent.launchMark s.restarts]
  ∧ exitCode Terminal.fatal ≠ 0
  ∧ (run cfg4 child4 [false, false, false] initState).log
      = [LogEvent.sessionStart, LogEvent.cmdLine, LogEvent.launchMark 0] := by
  obtain ⟨stp, res, lau, tim, ph, lg, cn⟩ := s
  simp only [MState.phase] at hp
  subst hp
  simp only [MState.launches] at hf
  cases b <;>
    simp [smallStep, applySignal, phaseStep, hf, exitCode] <;> decide

/-- Witness for C4 (amended) at the Scenario C session. -/
theorem fatal_launch_amended_witness :
    (child4 0).fatalLaunch = true
  ∧ (smallStep cfg4 child4 false
        { initState with phase := Phase.launching }).phase
      = Phase.done Terminal.fatal
  ∧ exitCode Terminal.fatal ≠ 0 :=
  ⟨by decide,
   (fatal_launch_amended cfg4 child4 false
      { initState with phase := Phase.launching } (by decide) rfl).1,
   (fatal_launch_amended cfg4 child4 false
      { initState with phase := Phase.launching } (by decide) rfl).2.2.2.2.1⟩

/-- C5 (bounded termination): for every child state the terminator returns
within the 3-second grace period plus one 200-millisecond poll interval,
and a child that never reports an exit during the grace window is sent the
forced kill exactly at grace expiry, after which the call returns without
further waiting. -/
theorem bounded_termination (p : ProcState) :
    (killProcessGroup p).elapsedMs ≤ graceMs + pollMs
  ∧ (p.pgidLookupFails = false → p.termKillFails = false →
      (∀ t, p.exitedBy t = false) →
      (killProcessGroup p).elapsedMs = graceMs
      ∧ (p.killKillFails = false →
          (killProcessGroup p).sent
            = [KillSignal.sigterm, KillSignal.sigkill])) := by
  obtain ⟨pg, tk, kk, ex, pgid⟩ := p
  have hdiv : graceMs / pollMs = 15 := by norm_num [graceMs, pollMs]
  have hle : (pollLoopAux ex 0 15).1 ≤ 3000 := by
    have h := pollLoopAux_fst_le ex 15 0
    simpa [pollMs] using h
  constructor
  · cases pg
    · cases tk
      · simp only [killProcessGroup, os_getpgid, os_killpg, hdiv,
          Bool.false_eq_true, ite_false]
        rcases hpoll : pollLoopAux ex 0 15 with ⟨t, b⟩
        rw [hpoll] at hle
        simp only [] at hle
        cases b
        · cases kk <;> simp [graceMs, pollMs] <;> omega
        · simp [graceMs, pollMs]
          omega
      · simp [killProcessGroup, os_getpgid, os_killpg]
    · simp [killProcessGroup, os_getpgid]
  · intro hpg htk hex
    simp only [] at hpg htk hex
    subst hpg
    subst htk
    have hnever := pollLoopAux_never ex hex 15 0
    simp only [killProcessGroup, os_getpgid, os_killpg, hdiv,
      Bool.false_eq_true, ite_false, hnever]
    refine ⟨?_, ?_⟩
    · cases kk <;> simp [graceMs, pollMs]
    · intro hkk
      subst hkk
      simp

/-- Witness for C5 at a child that ignores SIGTERM. -/
theorem bounded_termination_witness :
    (killProcessGroup procStuck).elapsedMs ≤ graceMs + pollMs
  ∧ (killProcessGroup procStuck).elapsedMs = graceMs
  ∧ (killProcessGroup procStuck).sent
      = [KillSignal.sigterm, KillSignal.sigkill] :=
  ⟨(bounded_termination procStuck).1,
   ((bounded_termination procStuck).2 rfl rfl (fun _ => rfl)).1,
   ((bounded_termination procStuck).2 rfl rfl (fun _ => rfl)).2 rfl⟩

/-- C6 (termination-race tolerance): when resolving the process-group id
fails because the child is already gone, the terminator returns success
immediately with no signal sent; when the graceful signal finds the group
gone, the call likewise returns having sent nothing; and when the forced
kill finds the group gone, the error is swallowed and no forced kill is
recorded — no already-gone condition surfaces as an error. -/
theorem termination_race (p : ProcState) :
    (p.pgidLookupFails = true →
        killProcessGroup p = { elapsedMs := 0, sent := [] })
  ∧ (p.pgidLookupFails = false → p.termKillFails = true →
        killProcessGroup p = { elapsedMs := 0, sent := [] })
  ∧ (p.killKillFails = true →
        KillSignal.sigkill ∉ (killProcessGroup p).sent) := by
  obtain ⟨pg, tk, kk, ex, pgid⟩ := p
  refine ⟨?_, ?_, ?_⟩
  · intro hpg
    simp only [] at hpg
    subst hpg
    simp [killProcessGroup, os_getpgid]
  · intro hpg htk
    simp only [] at hpg htk
    subst hpg
    subst htk
    simp [killProcessGroup, os_getpgid, os_killpg]
  · intro hkk
    simp only [] at hkk
    subst hkk
    cases pg
    · cases tk
      · simp only [killProcessGroup, os_getpgid, os_killpg,
          Bool.false_eq_true, ite_false, ite_true]
        rcases hpoll : pollLoopAux ex 0 (graceMs / pollMs) with ⟨t, b⟩
        cases b <;> simp
      · simp [killProcessGroup, os_getpgid, os_killpg]
    · simp [killProcessGroup, os_getpgid]

/-- Witness for C6 at the three already-gone race points. -/
theorem termination_race_witness :
    killProcessGroup procGone = { elapsedMs := 0, sent := [] }
  ∧ killProcessGroup procTermGone = { elapsedMs := 0, sent := [] }
  ∧ KillSignal.sigkill ∉ (killProcessGroup procKillGone).sent :=
  ⟨(termination_race procGone).1 rfl,
   (termination_race procTermGone).2.1 rfl rfl,
   (termination_race procKillGone).2.2 rfl⟩

/-- C7 (clean-exit policy): the unexpected-exit step logs the exit code
verbatim, prints the distinct clean-exit notice exactly when the code is
0, and for every exit code — 0 included — increments the restart counter
and continues to the budget check (never to a success terminal), so a
clean exit is handled exactly as a nonzero exit up to the extra notice; in
a concrete session whose child always exits with code 0, a relaunch
follows the first clean exit. -/
theorem clean_exit_policy (cfg : Cfg) (child : Nat → ChildSpec) :
    (∀ (b : Bool) (s : MState) (rc : Int), s.phase = Phase.exited rc →
        (smallStep cfg child b s).restarts = s.restarts + 1
      ∧ (smallStep cfg child b s).phase = Phase.budgetCheck
      ∧ (smallStep cfg child b s).log = s.log ++ [LogEvent.exitMark rc]
      ∧ (smallStep cfg child b s).cleanNotes
          = s.cleanNotes + (if rc = 0 then 1 else 0))
  ∧ ((run cfg7 child7 (List.replicate 11 false) initState).launches = 2
      ∧ (run cfg7 child7 (List.replicate 11 false) initState).restarts = 1
      ∧ (run cfg7 child7 (List.replicate 11 false) initState).cleanNotes
          = 1) := by
  constructor
  · intro b s rc hp
    obtain ⟨stp, res, lau, tim, ph, lg, cn⟩ := s
    simp only [MState.phase] at hp
    subst hp
    cases b <;> simp [smallStep, applySignal, phaseStep]
  · decide

/-- Witness for C7 at a clean exit with code 0. -/
theorem clean_exit_policy_witness :
    (smallStep cfg7 child7 false
        { initState with phase := Phase.exited 0, launches := 1 }).restarts
      = ({ initState with phase := Phase.exited 0,
                          launches := 1 } : MState).restarts + 1
  ∧ (smallStep cfg7 child7 false
        { initState with phase := Phase.exited 0, launches := 1 }).phase
      = Phase.budgetCheck :=
  ⟨((clean_exit_policy cfg7 child7).1 false _ 0 rfl).1,
   ((clean_exit_policy cfg7 child7).1 false _ 0 rfl).2.1⟩

/-- C8 counterexample: a signal delivered between the outer flag check and
the launch does not prevent that launch.  After two signal-free steps the
machine sits at the launch point with the flag still false; delivering the
signal there sets the flag, yet the very next step still performs the
launch, so a launch occurs from a state whose stop flag is true. -/
theorem stop_flag_race_counterexample :
    (run cfg8 child8 [false, false] initState).phase = Phase.launching
  ∧ (applySignal (run cfg8 child8 [false, false] initState)).stop = true
  ∧ (run cfg8 child8 [false, false, true] initState).launches
      = (applySignal (run cfg8 child8 [false, false] initState)).launches + 1
  ∧ (run cfg8 child8 [false, false, true] initState).stop = true := by
  decide

/-- C8 amended: the handler only ever writes `true` to the stop flag, no
step ever resets it (so it transitions false→true at most once), once the
flag is true and observed at the loop's outer check no further launch ever
occurs, and from any state whatever — including the race window between
the flag check and the launch — at most one further launch can occur after
the flag becomes true. -/
theorem stop_flag_amended (cfg : Cfg) (child : Nat → ChildSpec) :
    (∀ s : MState, (applySignal s).stop = true)
  ∧ (∀ (b : Bool) (s : MState), s.stop = true →
        (smallStep cfg child b s).stop = true)
  ∧ (∀ (sigs : List Bool) (s : MState), s.stop = true →
        s.phase = Phase.outerCheck →
        (run cfg child sigs s).launches = s.launches)
  ∧ (∀ (sigs : List Bool) (s : MState), s.stop = true →
        (run cfg child sigs s).launches ≤ s.launches + 1) := by
  refine ⟨fun _ => rfl, stop_smallStep cfg child, ?_, ?_⟩
  · intro sigs s hs hp
    exact stopped_outer_frozen cfg child sigs s hs (Or.inl hp)
  · intro sigs s hs
    have h := run_stop_potential cfg child sigs s hs
    have h1 : (run cfg child sigs s).launches
        ≤ launchPotential (run cfg child sigs s) := Nat.le_add_right _ _
    have h2 : launchPotential s ≤ s.launches + 1 := by
      have hb : (match s.phase with
          | Phase.guard => 1
          | Phase.launching => 1
          | _ => 0) ≤ 1 := by
        cases s.phase <;> simp
      unfold launchPotential
      omega
    exact Nat.le_trans h1 (Nat.le_trans h.2 h2)

/-- Witness for C8 (amended) at a stopped initial state. -/
theorem stop_flag_amended_witness :
    (smallStep cfg8 child8 false
        { initState with stop := true }).stop = true
  ∧ (run cfg8 child8 [false, false]
        { initState with stop := true }).launches
      = ({ initState with stop := true } : MState).launches
  ∧ (run cfg8 child8 [false, false, false]
        { initState with stop := true }).launches
      ≤ ({ initState with stop := true } : MState).launches + 1 :=
  ⟨(stop_flag_amended cfg8 child8).2.1 false _ rfl,
   (stop_flag_amended cfg8 child8).2.2.1 [false, false] _ rfl rfl,
   (stop_flag_amended cfg8 child8).2.2.2 [false, false, false] _ rfl⟩

/-- C9 (stop idempotence): delivering the stop notification k ≥ 1 times
before the flag is next observed leaves exactly the same supervisor state
as delivering it once — same flag, and identical supervisor behaviour
under every subsequent run — the handler having performed only the flag
write plus one notice print per delivery. -/
theorem stop_idempotence (sn : MState × Nat) (k : Nat) (hk : 1 ≤ k) :
    (handle_sig^[k] sn).1 = (handle_sig sn).1
  ∧ (handle_sig^[k] sn).1.stop = true
  ∧ (handle_sig^[k] sn).2 = sn.2 + k
  ∧ (∀ (cfg : Cfg) (child : Nat → ChildSpec) (sigs : List Bool),
        run cfg child sigs (handle_sig^[k] sn).1
          = run cfg child sigs (handle_sig sn).1) := by
  have h := handle_sig_iterate sn k hk
  rw [h]
  exact ⟨rfl, rfl, rfl, fun _ _ _ => rfl⟩

/-- Witness for C9: three deliveries equal one. -/
theorem stop_idempotence_witness :
    (handle_sig^[3] (initState, 0)).1 = (handle_sig (initState, 0)).1
  ∧ (handle_sig^[3] (initState, 0)).1.stop = true
  ∧ (handle_sig^[3] (initState, 0)).2 = 0 + 3
  ∧ run cfg7 child7 [false, false] (handle_sig^[3] (initState, 0)).1
      = run cfg7 child7 [false, false] (handle_sig (initState, 0)).1 :=
  ⟨(stop_idempotence (initState, 0) 3 (by decide)).1,
   (stop_idempotence (initState, 0) 3 (by decide)).2.1,
   (stop_idempotence (initState, 0) 3 (by decide)).2.2.1,
   (stop_idempotence (initState, 0) 3 (by decide)).2.2.2 cfg7 child7
     [false, false]⟩

/-- C10 (validation precedes all effects): a validation error fires
exactly when the segment duration is non-positive or the restart delay,
max restarts or max duration is negative; on such arguments `main` stops
with the parser's non-zero exit status having performed no directory
creation, no log opening and no launch; and all arguments passing the
checks proceed without a validation error into the setup effects and the
supervisor loop. -/
theorem config_validation (a : Args) (child : Nat → ChildSpec)
    (sigs : List Bool) :
    ((validateArgs a).isSome ↔
        (a.segment ≤ 0 ∨ a.restart_delay < 0 ∨ a.max_restarts < 0
          ∨ a.max_duration < 0))
  ∧ ((validateArgs a).isSome = true →
        mainProgram a child sigs = ([], Except.error parserErrorCode))
  ∧ parserErrorCode ≠ 0
  ∧ ((validateArgs a).isSome = false →
        mainProgram a child sigs
          = (setupEffects a,
              Except.ok (run (cfgOf a) child sigs initState))) := by
  refine ⟨?_, ?_, by simp [parserErrorCode], ?_⟩
  · unfold validateArgs
    split_ifs <;> simp_all <;> omega
  · intro hv
    rcases hsome : validateArgs a with _ | e
    · rw [hsome] at hv; simp at hv
    · simp [mainProgram, hsome]
  · intro hv
    rcases hsome : validateArgs a with _ | e
    · simp [mainProgram, hsome]
    · rw [hsome] at hv; simp at hv

/-- Witness for C10 at a rejected and an accepted argument vector. -/
theorem config_validation_witness :
    (validateArgs argsBad).isSome = true
  ∧ mainProgram argsBad childPlain [] = ([], Except.error parserErrorCode)
  ∧ (validateArgs argsGood).isSome = false
  ∧ mainProgram argsGood childPlain []
      = (setupEffects argsGood,
          Except.ok (run (cfgOf argsGood) childPlain [] initState)) :=
  ⟨by decide,
   (config_validation argsBad childPlain []).2.1 (by decide),
   by decide,
   (config_validation argsGood childPlain []).2.2.2 (by decide)⟩

end RtspRecorder
